import Mathlib

set_option maxRecDepth 100000

/-!
Shallow embedding of the error-narrator engine (JavaScript sources
`src/config.js`, `src/errorProcessor.js`, `src/browser.js`).

Strings are modelled as `List Char`; all concrete inputs used below are
ASCII, where one `Char` corresponds to one UTF-16 code unit of the
JavaScript string.  Machine arithmetic of the 32-bit hash is modelled on
`Int` with explicit wrapping modulo 2^32.  Timestamps (`Date.now()`) are
`Nat` values passed in explicitly; comparisons are performed on `Int`
exactly as JavaScript number subtraction does.
-/

namespace ErrNarr

/-- JavaScript `\s` (whitespace class), restricted to the forms that occur
in the modelled strings (ASCII whitespace).  Used for `\s` in regexes,
`trim`, and the `/\s+/g` cleaning step. -/
def isWs (c : Char) : Bool :=
  c == ' ' || c == '\t' || c == '\n' || c == '\r' || c == '\x0b' || c == '\x0c'

/-- Characters that JavaScript `.` (without the `s` flag) does not match. -/
def isNl (c : Char) : Bool :=
  c == '\n' || c == '\r' || c == '\u2028' || c == '\u2029'

/-- JavaScript `\d`. -/
def isDigit (c : Char) : Bool := '0' ≤ c && c ≤ '9'

/-- `\w` of JavaScript: `[A-Za-z0-9_]`. -/
def isWordChar (c : Char) : Bool :=
  ('a' ≤ c && c ≤ 'z') || ('A' ≤ c && c ≤ 'Z') || ('0' ≤ c && c ≤ '9') || c == '_'

/-- `String.prototype.toLowerCase`, on one character (ASCII range). -/
def lowerL (s : List Char) : List Char := s.map Char.toLower

/-- Case-insensitive character comparison used by `i`-flagged regexes. -/
def eqCi (a b : Char) : Bool := a.toLower == b.toLower

/-- Strip a case-insensitive literal from the front of `s`; `some rest`
when the literal matches, `none` otherwise.  Workhorse for the literal
parts of the `i`-flagged regexes. -/
def ciStrip : List Char → List Char → Option (List Char)
  | [], s => some s
  | _ :: _, [] => none
  | p :: ps, c :: cs => if eqCi p c then ciStrip ps cs else none

/-- `String.prototype.includes` (case-sensitive substring test).
Callers that correspond to `a.toLowerCase().includes(b.toLowerCase())`
lower both arguments first via `lowerL`. -/
def containsSub (hay pat : List Char) : Bool :=
  if pat.isPrefixOf hay then true
  else
    match hay with
    | [] => false
    | _ :: t => containsSub t pat

/-- Case-insensitive substring search, for `i`-flagged regexes whose body
is a plain literal (e.g. `/Failed to fetch/i`). -/
def ciContains (hay pat : List Char) : Bool :=
  if (ciStrip pat hay).isSome then true
  else
    match hay with
    | [] => false
    | _ :: t => ciContains t pat

/-- `String.prototype.trim` (restricted to the modelled whitespace set). -/
def jsTrim (s : List Char) : List Char :=
  ((s.dropWhile isWs).reverse.dropWhile isWs).reverse

/-- Wrap an integer into the signed 32-bit range, as JavaScript `| 0`,
`& x`, and `<< n` do via ToInt32. -/
def toInt32 (x : Int) : Int := (x + 2 ^ 31) % 2 ^ 32 - 2 ^ 31

/-- One step of `Config.hashString`’s loop (config.js:233-237):
`hash = (hash << 5) - hash + char; hash = hash & hash;`.
`hash << 5` is ToInt32(hash * 32); the following subtraction and addition
are exact in float64 at these magnitudes; `hash & hash` is ToInt32. -/
def hashStep (h : Int) (c : Char) : Int :=
  toInt32 (toInt32 (h * 32) - h + (c.toNat : Int))

/-- `Config.hashString` (config.js:230-239): 32-bit string hash, rendered
in decimal after `Math.abs`.  The empty string returns the number `0`,
which stringifies to `"0"` at the only use site (template literal). -/
def hashString (s : List Char) : List Char :=
  if s.isEmpty then ('0' : Char) :: []
  else (Nat.repr (s.foldl hashStep 0).natAbs).toList

/-- `ErrorProcessor.truncateMessage` (errorProcessor.js:186-191).
`none` for the second argument models an `undefined` `maxMessageLength`,
for which the JS default parameter `150` applies.  `message.substring(0,
maxLength - 3)` clamps a negative bound to `0`, which `Nat` subtraction in
`List.take` reproduces. -/
def truncateMessage (message : List Char) (maxLength? : Option Nat) : List Char :=
  let maxLength := maxLength?.getD 150
  if message.length ≤ maxLength then message
  else message.take (maxLength - 3) ++ ("...".toList)

/-- A fault (JavaScript `Error`-like object): its `message`, its
`constructor.name`, and its `stack`.  A `message` of `[]` models a falsy
(empty/absent) message. -/
structure Fault where
  message : List Char
  ctorName : List Char
  stack : List Char
deriving DecidableEq

/-- `error.toString()` for an `Error`: `name` or `name + ": " + message`. -/
def errToString (e : Fault) : List Char :=
  if e.message.isEmpty then e.ctorName
  else e.ctorName ++ (": ".toList) ++ e.message

/-- `error.message || error.toString()` — the raw text every component
starts from. -/
def msgOf (e : Fault) : List Char :=
  if e.message.isEmpty then errToString e else e.message

/-- `error.constructor?.name || "Error"` (config.js:140). -/
def typeNameOf (e : Fault) : List Char :=
  if e.ctorName.isEmpty then ("Error".toList) else e.ctorName

/-- The `filters` block of the configuration.  `none` models a `null` /
absent field (the source distinguishes these from empty arrays with
optional chaining and truthiness tests). -/
structure Filters where
  ignorePatterns : Option (List (List Char))
  onlyPatterns : Option (List (List Char))
  errorTypes : Option (List (List Char))
deriving DecidableEq

/-- The slice of the configuration object read by the modelled logic
(`debug`, `voice` and prosody fields only affect logging and the sink
parameters and are omitted). -/
structure NarratorConfig where
  enabled : Bool
  cooldownMs : Nat
  maxMessageLength : Option Nat
  humanize : Bool
  fallbackToRaw : Bool
  includeLocation : Option Bool
  filters : Filters
deriving DecidableEq

/-- The default `filters` of `defaultConfig` (config.js:83-97). -/
def defaultFilters : Filters where
  ignorePatterns := some
    [("ResizeObserver loop limit exceeded".toList),
     ("Non-Error promise rejection captured".toList),
     ("Loading chunk".toList)]
  onlyPatterns := none
  errorTypes := some
    [("SyntaxError".toList), ("ReferenceError".toList), ("TypeError".toList),
     ("RangeError".toList), ("Error".toList)]

/-- `defaultConfig` (config.js:75-101) with `enabled` forced to `true`
(in the source `enabled` is `process.env.NODE_ENV === "development"`;
the claims below concern an enabled engine). -/
def cfgOn : NarratorConfig where
  enabled := true
  cooldownMs := 5000
  maxMessageLength := some 100
  humanize := true
  fallbackToRaw := true
  includeLocation := none
  filters := defaultFilters

/-- The policy ledger held by `Config`: `this.lastSpoken` and
`this.errorCounts`, two string-keyed maps, modelled as association lists. -/
structure Ledger where
  lastSpoken : List (List Char × Nat)
  errorCounts : List (List Char × Nat)
deriving DecidableEq

def emptyLedger : Ledger := ⟨[], []⟩

/-- `Map.prototype.get`. -/
def mapGet (m : List (List Char × Nat)) (k : List Char) : Option Nat :=
  match m with
  | [] => none
  | (k', v) :: rest => if k' == k then some v else mapGet rest k

/-- `Map.prototype.set`. -/
def mapSet (m : List (List Char × Nat)) (k : List Char) (v : Nat) :
    List (List Char × Nat) :=
  match m with
  | [] => [(k, v)]
  | (k', v') :: rest => if k' == k then (k, v) :: rest else (k', v') :: mapSet rest k v

/-- JavaScript truthiness of `map.get(key)`: `undefined` and `0` are
falsy.  `shouldSpeak` guards both cooldown checks with it. -/
def jsTruthy (o : Option Nat) : Bool :=
  match o with
  | none => false
  | some v => v != 0

def globalKey : List Char := "global".toList

/-- The per-error cooldown key `errorType + ":" + hashString(message)`
(config.js:144-145), built from the raw message text. -/
def errorKeyOf (e : Fault) : List Char :=
  typeNameOf e ++ ':' :: hashString (msgOf e)

/-- `Config.shouldSpeak` (config.js:133-227), as a pure function from the
fault, the current time and the ledger to the verdict and the new ledger.
Every early `return false` leaves the ledger unchanged; the final branch
performs the three `set` updates of lines 214-217. -/
def shouldSpeak (cfg : NarratorConfig) (e : Fault) (now : Nat) (st : Ledger) :
    Bool × Ledger :=
  if cfg.enabled = false then (false, st)
  else
    let message := msgOf e
    let errorType := typeNameOf e
    let errorKey := errorType ++ ':' :: hashString message
    let lastGlobal := mapGet st.lastSpoken globalKey
    if jsTruthy lastGlobal &&
        decide ((now : Int) - (lastGlobal.getD 0 : Nat) < (cfg.cooldownMs : Int)) then
      (false, st)
    else
      let lastError := mapGet st.lastSpoken errorKey
      let errorCount := (mapGet st.errorCounts errorKey).getD 0
      let specificCooldown := cfg.cooldownMs * min (errorCount + 1) 5
      if jsTruthy lastError &&
          decide ((now : Int) - (lastError.getD 0 : Nat) < (specificCooldown : Int)) then
        (false, st)
      else
        if (cfg.filters.ignorePatterns.getD []).any
            (fun pat => containsSub (lowerL message) (lowerL pat)) then
          (false, st)
        else if ((cfg.filters.errorTypes.getD []).length > 0) &&
            !((cfg.filters.errorTypes.getD []).contains errorType) then
          (false, st)
        else if ((cfg.filters.onlyPatterns.getD []).length > 0) &&
            !((cfg.filters.onlyPatterns.getD []).any
              (fun pat => containsSub (lowerL message) (lowerL pat))) then
          (false, st)
        else
          (true,
            { lastSpoken := mapSet (mapSet st.lastSpoken globalKey now) errorKey now,
              errorCounts := mapSet st.errorCounts errorKey (errorCount + 1) })

/-- The ledger update performed on admission (config.js:214-217), stated
separately so that theorems can compare `shouldSpeak`’s effect against it. -/
def admitUpdate (st : Ledger) (errorKey : List Char) (now : Nat) : Ledger where
  lastSpoken := mapSet (mapSet st.lastSpoken globalKey now) errorKey now
  errorCounts := mapSet st.errorCounts errorKey
    ((mapGet st.errorCounts errorKey).getD 0 + 1)

/-- Submit the same fault repeatedly at the given times, threading the
ledger, and collect the verdicts (the shape of the spec’s per-key
escalation scenario). -/
def runAttempts (cfg : NarratorConfig) (e : Fault) (st : Ledger) :
    List Nat → List Bool × Ledger
  | [] => ([], st)
  | t :: ts =>
    let r := shouldSpeak cfg e t st
    let rest := runAttempts cfg e r.2 ts
    (r.1 :: rest.1, rest.2)

/-! ### The humanizer (`ErrorProcessor.humanizeError`, errorProcessor.js)

Each regex of the pattern table is embedded as a bespoke matcher that
reproduces the JavaScript engine’s leftmost search, lazy/greedy
quantifiers and backtracking for that particular expression.  Capture
groups are collected as `List (Option (List Char))` (`match[1]`,
`match[2]`, …). -/

/-- Groups of a successful regex match: entry `i` is `match[i+1]`. -/
def RMatch := List (Option (List Char))

/-- `\s+` followed by a case-insensitive literal: `\s+` is greedy, and
since none of the literals begins with whitespace the greedy run is
forced to the whole whitespace block. -/
def wsThenLit (lit s : List Char) : Bool :=
  match s with
  | [] => false
  | c :: rest => isWs c && (ciStrip lit (rest.dropWhile isWs)).isSome

def litIsNotAFunction : List Char := "is not a function".toList

/-- `/(.+?)\s+is not a function/i` at a fixed start: the lazy `(.+?)`
grows one (non-line-terminator) character at a time until `\s+` plus the
literal follows. -/
def r1FromStart (g : List Char) : List Char → Option (List Char)
  | [] => none
  | c :: rest =>
    if isNl c then none
    else if wsThenLit litIsNotAFunction rest then some (g ++ [c])
    else r1FromStart (g ++ [c]) rest

/-- `/(.+?)\s+is not a function/i`: leftmost match, returning `match[1]`. -/
def r1Match : List Char → Option (List Char)
  | [] => none
  | c :: t =>
    match r1FromStart [] (c :: t) with
    | some g => some g
    | none => r1Match t

def r2Lit : List Char := "Cannot read property '".toList
def r2Mid : List Char := "' of ".toList

/-- Tail of `/Cannot read property '(.+?)' of (.+)/i` after the opening
literal: lazy `(.+?)`, then `' of `, then greedy `(.+)` (at least one
non-line-terminator); an empty trailing group forces further lazy
extension. -/
def r2FromStart (g : List Char) : List Char → Option (List Char × List Char)
  | [] => none
  | c :: rest =>
    if isNl c then none
    else
      match ciStrip r2Mid rest with
      | some tail =>
        let g2 := tail.takeWhile (fun x => !isNl x)
        if g2.isEmpty then r2FromStart (g ++ [c]) rest else some (g ++ [c], g2)
      | none => r2FromStart (g ++ [c]) rest

/-- `/Cannot read property '(.+?)' of (.+)/i`: leftmost match. -/
def r2Match : List Char → Option (List Char × List Char)
  | [] => none
  | c :: t =>
    match (match ciStrip r2Lit (c :: t) with
           | some afterLit => r2FromStart [] afterLit
           | none => none) with
    | some gs => some gs
    | none => r2Match t

def r3Lit : List Char := "Cannot read properties of ".toList
def r3Mid : List Char := " (reading '".toList
def r3End : List Char := "')".toList

/-- Inner lazy group of `/Cannot read properties of (.+?) \(reading
'(.+?)'\)/i`: grows until `')` follows. -/
def r3Inner (g : List Char) : List Char → Option (List Char)
  | [] => none
  | c :: rest =>
    if isNl c then none
    else if (ciStrip r3End rest).isSome then some (g ++ [c])
    else r3Inner (g ++ [c]) rest

/-- Outer lazy group of the same regex; on inner failure the outer group
extends. -/
def r3FromStart (g : List Char) : List Char → Option (List Char × List Char)
  | [] => none
  | c :: rest =>
    if isNl c then none
    else
      match ciStrip r3Mid rest with
      | some tail =>
        match r3Inner [] tail with
        | some g2 => some (g ++ [c], g2)
        | none => r3FromStart (g ++ [c]) rest
      | none => r3FromStart (g ++ [c]) rest

/-- `/Cannot read properties of (.+?) \(reading '(.+?)'\)/i`. -/
def r3Match : List Char → Option (List Char × List Char)
  | [] => none
  | c :: t =>
    match (match ciStrip r3Lit (c :: t) with
           | some afterLit => r3FromStart [] afterLit
           | none => none) with
    | some gs => some gs
    | none => r3Match t

def r4Lit : List Char := "Unexpected token ".toList
def r4JsonLit : List Char := "in JSON at position ".toList

/-- The optional group `(?:\s+in JSON at position (\d+))?` of
`/Unexpected token (.+?)(?:\s+in JSON at position (\d+))?/i`, tried
greedily right after the one-character lazy token. -/
def r4Suffix (s : List Char) : Option (List Char) :=
  match s with
  | [] => none
  | c :: rest =>
    if isWs c then
      match ciStrip r4JsonLit (rest.dropWhile isWs) with
      | some tail =>
        let n := tail.takeWhile isDigit
        if n.isEmpty then none else some n
      | none => none
    else none

/-- After the literal `Unexpected token `: the lazy `(.+?)` matches a
single character (the optional tail group can always match empty, so the
lazy group never grows past one character). -/
def r4At : List Char → Option (List Char × Option (List Char))
  | [] => none
  | c :: rest =>
    if isNl c then none
    else
      match r4Suffix rest with
      | some n => some ([c], some n)
      | none => some ([c], none)

/-- `/Unexpected token (.+?)(?:\s+in JSON at position (\d+))?/i`. -/
def r4Match : List Char → Option (List Char × Option (List Char))
  | [] => none
  | c :: t =>
    match (match ciStrip r4Lit (c :: t) with
           | some afterLit => r4At afterLit
           | none => none) with
    | some m => some m
    | none => r4Match t

def r5Lit : List Char := "Module not found: ".toList

/-- `/Module not found: (.+)/i` (the capture is unused by its handler). -/
def r5Match : List Char → Bool
  | [] => false
  | c :: t =>
    (match ciStrip r5Lit (c :: t) with
     | some tail => !(tail.takeWhile (fun x => !isNl x)).isEmpty
     | none => false) || r5Match t

def r9Lit1 : List Char := "Cannot update a component".toList
def r9Lit2 : List Char := "while rendering".toList

/-- `/Cannot update a component.*while rendering/i`: the two literals with
any same-line gap between them (the handler uses no groups, so only
existence matters). -/
def r9Match : List Char → Bool
  | [] => false
  | c :: t =>
    (match ciStrip r9Lit1 (c :: t) with
     | some tail => ciContains (tail.takeWhile (fun x => !isNl x)) r9Lit2
     | none => false) || r9Match t

def litIsNotDefined : List Char := " is not defined".toList

/-- `/(.+?) is not defined/i` at a fixed start. -/
def r12FromStart (g : List Char) : List Char → Option (List Char)
  | [] => none
  | c :: rest =>
    if isNl c then none
    else if (ciStrip litIsNotDefined rest).isSome then some (g ++ [c])
    else r12FromStart (g ++ [c]) rest

/-- `/(.+?) is not defined/i`: leftmost match. -/
def r12Match : List Char → Option (List Char)
  | [] => none
  | c :: t =>
    match r12FromStart [] (c :: t) with
    | some g => some g
    | none => r12Match t

/-- One rule of the pattern table: its key in the `patterns` object, its
regex, and its handler. -/
structure PatternRule where
  pname : List Char
  matcher : List Char → Option RMatch
  handler : RMatch → List Char

/-- `match[i+1]` of a match object. -/
def grp (m : RMatch) (i : Nat) : Option (List Char) := m.getD i none

/-- `match[k] || default` — JavaScript falsy fallback on a group. -/
def jsOr (g : Option (List Char)) (d : List Char) : List Char :=
  match g with
  | none => d
  | some s => if s.isEmpty then d else s

def h1 (m : RMatch) : List Char :=
  let v := jsTrim ((grp m 0).getD [])
  (if v.isEmpty then ("variable".toList) else v) ++
    (" is not a function. Check if it's properly imported or defined.".toList)

def h2 (m : RMatch) : List Char :=
  ("Cannot read property ".toList) ++ jsOr (grp m 0) ("property".toList) ++
    (". The ".toList) ++ jsOr (grp m 1) ("undefined object".toList) ++
    (" might be null or undefined.".toList)

def h3 (m : RMatch) : List Char :=
  ("Cannot read property ".toList) ++ jsOr (grp m 1) ("property".toList) ++
    (" of ".toList) ++ jsOr (grp m 0) ("undefined".toList) ++
    (". Check if the object exists.".toList)

def h4 (m : RMatch) : List Char :=
  let token := jsOr (grp m 0) ("token".toList)
  if ((grp m 1).getD []).isEmpty then
    ("Syntax error: unexpected ".toList) ++ token ++
      (". Check for missing brackets, commas, or quotes.".toList)
  else
    ("JSON syntax error at position ".toList) ++ (grp m 1).getD [] ++
      (". Unexpected ".toList) ++ token ++ (".".toList)

def h12 (m : RMatch) : List Char :=
  ("Reference error: ".toList) ++ jsOr (grp m 0) ("variable".toList) ++
    (" is not defined. Check spelling and scope.".toList)

/-- Handler that ignores the match object. -/
def hFixed (s : List Char) : RMatch → List Char := fun _ => s

def m1 (s : List Char) : Option RMatch := (r1Match s).map (fun g => [some g])

def m2 (s : List Char) : Option RMatch :=
  (r2Match s).map (fun gs => [some gs.1, some gs.2])

def m3 (s : List Char) : Option RMatch :=
  (r3Match s).map (fun gs => [some gs.1, some gs.2])

def m4 (s : List Char) : Option RMatch :=
  (r4Match s).map (fun gm => [some gm.1, gm.2])

def m5 (s : List Char) : Option RMatch := if r5Match s then some [] else none

def m9 (s : List Char) : Option RMatch := if r9Match s then some [] else none

def m12 (s : List Char) : Option RMatch := (r12Match s).map (fun g => [some g])

/-- A ci-literal regex such as `/Failed to fetch/i`. -/
def mCiLit (lit : List Char) (s : List Char) : Option RMatch :=
  if ciContains s lit then some [] else none

/-- `/.*/` — always matches (possibly the empty string). -/
def mAll (_s : List Char) : Option RMatch := some []

/-- The `patterns` object of `ErrorProcessor.humanizeError`
(errorProcessor.js:12-125), in `Object.entries` (insertion) order. -/
def patternRules : List PatternRule :=
  [⟨"is not a function".toList, m1, h1⟩,
   ⟨"Cannot read property".toList, m2, h2⟩,
   ⟨"Cannot read properties".toList, m3, h3⟩,
   ⟨"Unexpected token".toList, m4, h4⟩,
   ⟨"Module not found".toList, m5,
    hFixed ("Module not found. Check your import path and make sure the package is installed.".toList)⟩,
   ⟨"Failed to fetch".toList, mCiLit ("Failed to fetch".toList),
    hFixed ("Network error: Failed to fetch data. Check your internet connection or API endpoint.".toList)⟩,
   ⟨"Internal server error".toList, mCiLit ("Internal server error".toList),
    hFixed ("Server error: An internal server error occurred.".toList)⟩,
   ⟨"Objects are not valid as a React child".toList,
    mCiLit ("Objects are not valid as a React child".toList),
    hFixed ("React error: Cannot render an object directly. Use JSON.stringify or render object properties individually.".toList)⟩,
   ⟨"Cannot update a component while rendering a different component".toList, m9,
    hFixed ("React error: State update during render. Move state updates to useEffect or event handlers.".toList)⟩,
   ⟨"Invalid hook call".toList, mCiLit ("Invalid hook call".toList),
    hFixed ("React hook error: Hooks can only be called at the top level of function components.".toList)⟩,
   ⟨"Assignment to constant variable".toList,
    mCiLit ("Assignment to constant variable".toList),
    hFixed ("Cannot reassign a constant variable. Use let or var for variables that need to change.".toList)⟩,
   ⟨"ReferenceError".toList, m12, h12⟩,
   ⟨"TypeError".toList, mAll,
    hFixed ("Type error: Operation performed on wrong data type. Check your variable types.".toList)⟩,
   ⟨"RangeError".toList, mAll,
    hFixed ("Range error: Value is outside the allowed range.".toList)⟩,
   ⟨"URIError".toList, mAll,
    hFixed ("URI error: Invalid URI format.".toList)⟩]

/-- The pattern loop (errorProcessor.js:128-148): a rule applies when its
key equals the error type or is a case-insensitive substring of the
message; the first rule whose regex then matches wins, and a regex
failure falls through to later rules. -/
def tryPatterns : List PatternRule → List Char → List Char → Option (List Char)
  | [], _, _ => none
  | p :: rest, message, errorType =>
    if p.pname == errorType || containsSub (lowerL message) (lowerL p.pname) then
      match p.matcher message with
      | some m => some (p.handler m)
      | none => tryPatterns rest message errorType
    else tryPatterns rest message errorType

/-! ### `ErrorProcessor.cleanMessage` (errorProcessor.js:169-184) -/

/-- The lazy `.*?!` tail of `/webpack:\/\/\/.*?!/g`: shortest run of
non-line-terminators up to the next `!`; returns the remainder after the
`!`. -/
def lazyToBang : List Char → Option (List Char)
  | [] => none
  | c :: rest =>
    if c == '!' then some rest
    else if isNl c then none
    else lazyToBang rest

def wpLit : List Char := "webpack:///".toList

/-- `.replace(/webpack:\/\/\/.*?!/g, "")`: repeatedly delete the leftmost
match and continue after it.  Every step consumes at least one character,
so running it with `fuel := s.length` steps is exhaustive; the explicit
fuel keeps the recursion structural (kernel-computable). -/
def replaceWebpackF : Nat → List Char → List Char
  | _, [] => []
  | 0, s => s
  | fuel + 1, c :: rest =>
    if wpLit.isPrefixOf (c :: rest) then
      match lazyToBang ((c :: rest).drop 11) with
      | some rem => replaceWebpackF fuel rem
      | none => c :: replaceWebpackF fuel rest
    else c :: replaceWebpackF fuel rest

def replaceWebpack (s : List Char) : List Char := replaceWebpackF s.length s

/-- `.replace(/\.\//g, "")`. -/
def replaceDotSlash : List Char → List Char
  | [] => []
  | '.' :: '/' :: rest => replaceDotSlash rest
  | c :: rest => c :: replaceDotSlash rest

def nmLit : List Char := "node_modules".toList

/-- `.replace(/[^\s]*node_modules[^\s]*/g, "dependency")`: a match is the
whole maximal non-whitespace token around an occurrence of
`node_modules` (leftmost start, greedy extension to the token’s end). -/
def replaceNodeModulesF : Nat → List Char → List Char
  | _, [] => []
  | 0, s => s
  | fuel + 1, c :: rest =>
    if isWs c then c :: replaceNodeModulesF fuel rest
    else
      (if containsSub (c :: rest.takeWhile (fun x => !isWs x)) nmLit
       then ("dependency".toList)
       else c :: rest.takeWhile (fun x => !isWs x)) ++
        replaceNodeModulesF fuel (rest.dropWhile (fun x => !isWs x))

def replaceNodeModules (s : List Char) : List Char := replaceNodeModulesF s.length s

/-- `.replace(/[{}[\]]/g, " ")`. -/
def bracketToSpace (c : Char) : Char :=
  if c == '\x7b' || c == '\x7d' || c == '[' || c == ']' then ' ' else c

/-- `.replace(/[^\w\s.,!?:-]/g, " ")`. -/
def punctToSpace (c : Char) : Char :=
  if isWordChar c || isWs c || c == '.' || c == ',' || c == '!' || c == '?' ||
      c == ':' || c == '-' then c
  else ' '

/-- `.replace(/\s+/g, " ")`: collapse every whitespace run to one space. -/
def collapseWs : List Char → List Char
  | [] => []
  | [c] => [if isWs c then ' ' else c]
  | c1 :: c2 :: rest =>
    if isWs c1 && isWs c2 then collapseWs (c2 :: rest)
    else (if isWs c1 then ' ' else c1) :: collapseWs (c2 :: rest)

/-- `ErrorProcessor.cleanMessage` (errorProcessor.js:169-184): the six
`replace` passes followed by `trim`. -/
def cleanMessage (message : List Char) : List Char :=
  jsTrim (collapseWs
    (((replaceNodeModules (replaceDotSlash (replaceWebpack message))).map
        bracketToSpace).map punctToSpace))

/-! ### Stack-frame extraction and `humanizeError` itself -/

/-- `:(\d+):(\d+)` — the line/column tail of `/at (.+?):(\d+):(\d+)/`;
returns the line digits. -/
def colonDigits (s : List Char) : Option (List Char) :=
  match s with
  | ':' :: t =>
    let d1 := t.takeWhile isDigit
    if d1.isEmpty then none
    else
      match t.drop d1.length with
      | ':' :: u => if (u.takeWhile isDigit).isEmpty then none else some d1
      | _ => none
  | _ => none

/-- Lazy `(.+?)` of `/at (.+?):(\d+):(\d+)/` at a fixed start. -/
def stackLocFromStart (g : List Char) : List Char → Option (List Char × List Char)
  | [] => none
  | c :: rest =>
    if isNl c then none
    else
      match colonDigits rest with
      | some line => some (g ++ [c], line)
      | none => stackLocFromStart (g ++ [c]) rest

def atLit : List Char := "at ".toList

/-- `/at (.+?):(\d+):(\d+)/` (case-sensitive): leftmost match, returning
`(match[1], match[2])`. -/
def stackLocSearch : List Char → Option (List Char × List Char)
  | [] => none
  | c :: t =>
    match (if atLit.isPrefixOf (c :: t) then stackLocFromStart [] ((c :: t).drop 3)
           else none) with
    | some r => some r
    | none => stackLocSearch t

/-- `split("/").pop()`. -/
def splitPop (s : List Char) : List Char := (s.splitOn '/').getLastD []

/-- `ErrorProcessor.humanizeError` (errorProcessor.js:2-167).  The
humanizer is total here, so the `try/catch` fallback paths of the engine
facades are unreachable in the model. -/
def humanizeError (e : Fault) (cfg : NarratorConfig) : List Char :=
  let message := msgOf e
  let errorType := e.ctorName
  let stack := e.stack
  match tryPatterns patternRules message errorType with
  | some humanized => truncateMessage humanized cfg.maxMessageLength
  | none =>
    match (if !stack.isEmpty && !(cfg.includeLocation == some false) then
             stackLocSearch stack
           else none) with
    | some fl =>
      let file := if (splitPop fl.1).isEmpty then ("unknown file".toList)
                  else splitPop fl.1
      truncateMessage
        (cleanMessage message ++ (" in ".toList) ++ file ++ (" at line ".toList) ++ fl.2)
        cfg.maxMessageLength
    | none => truncateMessage (cleanMessage message) cfg.maxMessageLength

/-- The hardcoded always-ignore list of `ErrorProcessor.shouldIgnoreError`
(errorProcessor.js:230-235). -/
def alwaysIgnorePatterns : List (List Char) :=
  [("ResizeObserver loop limit exceeded".toList),
   ("Non-Error promise rejection captured with value".toList),
   ("Loading chunk".toList),
   ("ChunkLoadError".toList)]

/-- `ErrorProcessor.shouldIgnoreError` (errorProcessor.js:226-240): a
case-insensitive substring test of the always-ignore list against the
raw message.  (The source’s `config` parameter is unused.) -/
def shouldIgnoreError (e : Fault) : Bool :=
  alwaysIgnorePatterns.any (fun pat => containsSub (lowerL (msgOf e)) (lowerL pat))

/-! ### The browser engine facade (`ErrorNarratorBrowser`, browser.js)

The engine is modelled as a state machine.  `outstanding` is an
instrumentation counter (not a source field): it counts utterances handed
to `window.speechSynthesis.speak` whose `onend`/`onerror` callback has not
fired yet.  The `try/catch` around utterance construction is not
modelled (the sink is assumed not to throw synchronously). -/

structure EngineState where
  cfg : NarratorConfig
  ledger : Ledger
  speechQueue : List (List Char)
  isSpeaking : Bool
  sinkAvailable : Bool
  outstanding : Nat
deriving DecidableEq

/-- The state after the constructor (browser.js:5-22). -/
def initEngine (cfg : NarratorConfig) (sink : Bool) : EngineState where
  cfg := cfg
  ledger := emptyLedger
  speechQueue := []
  isSpeaking := false
  sinkAvailable := sink
  outstanding := 0

/-- `processSpeechQueue` (browser.js:216-284): return if speaking or
empty, otherwise shift the head, set `isSpeaking`, and hand the utterance
to the sink (counted in `outstanding`). -/
def processSpeechQueue (s : EngineState) : EngineState :=
  if s.isSpeaking then s
  else
    match s.speechQueue with
    | [] => s
    | _ :: rest =>
      { s with speechQueue := rest, isSpeaking := true,
               outstanding := s.outstanding + 1 }

/-- `speak` (browser.js:191-214): bail out when disabled or the speech
API is absent; otherwise push onto the queue and process it. -/
def speakOp (s : EngineState) (message : List Char) : EngineState :=
  if s.cfg.enabled = false || s.sinkAvailable = false then s
  else processSpeechQueue { s with speechQueue := s.speechQueue ++ [message] }

/-- `handleError` (browser.js:76-139), paired with a flag recording
whether `ErrorProcessor.humanizeError` was invoked on this call.  The
`catch` branch (humanization throwing) is dead in the model because the
embedded humanizer is total. -/
def handleErrorT (s : EngineState) (e? : Option Fault) (now : Nat) :
    EngineState × Bool :=
  match e? with
  | none => (s, false)
  | some e =>
    if shouldIgnoreError e then (s, false)
    else
      let message := if s.cfg.humanize then humanizeError e s.cfg else msgOf e
      if message.isEmpty then (s, s.cfg.humanize)
      else if s.speechQueue.contains message then (s, s.cfg.humanize)
      else
        let r := shouldSpeak s.cfg e now s.ledger
        if r.1 then (speakOp { s with ledger := r.2 } message, s.cfg.humanize)
        else ({ s with ledger := r.2 }, s.cfg.humanize)

/-- `clearQueue` (browser.js:300-306): drop pending utterances, call the
sink’s `cancel` (whose completion events for in-flight utterances arrive
asynchronously later), clear `isSpeaking`. -/
def clearQueueOp (s : EngineState) : EngineState :=
  { s with speechQueue := [], isSpeaking := false }

/-- Default message of `test` (browser.js:309). -/
def defaultTestMessage : List Char := "Error narrator is working correctly".toList

/-- The events the engine reacts to.  `complete` is an
`onend`/`onerror` callback of a previously dispatched utterance;
`settle` is the deferred `setTimeout(() => processSpeechQueue(), 100)`
those callbacks schedule. -/
inductive Ev where
  | fault (e : Option Fault) (now : Nat)
  | speakEv (m : List Char)
  | testEv (m : Option (List Char))
  | clearEv
  | complete
  | settle
deriving DecidableEq

/-- One engine step.  A `complete` event can only belong to a dispatched
utterance, so it is inert when nothing is outstanding. -/
def step (s : EngineState) : Ev → EngineState
  | .fault e now => (handleErrorT s e now).1
  | .speakEv m => speakOp s m
  | .testEv m => speakOp s (m.getD defaultTestMessage)
  | .clearEv => clearQueueOp s
  | .complete =>
    if s.outstanding = 0 then s
    else { s with outstanding := s.outstanding - 1, isSpeaking := false }
  | .settle => processSpeechQueue s

def runEvents (s : EngineState) (evs : List Ev) : EngineState :=
  evs.foldl step s

/-- Events other than the direct `speak`/`test` entry points. -/
def isCoreEv : Ev → Bool
  | .fault _ _ => true
  | .clearEv => true
  | .complete => true
  | .settle => true
  | .speakEv _ => false
  | .testEv _ => false

/-- Events other than cancellation. -/
def isNonCancelEv : Ev → Bool
  | .clearEv => false
  | _ => true

/-- The queue/sink invariant of the spec: at most one utterance is with
the sink, and `isSpeaking` holds exactly when one is. -/
def InflightInv (s : EngineState) : Prop :=
  s.outstanding ≤ 1 ∧ (s.isSpeaking = true ↔ s.outstanding = 1)

/-! ### Auxiliary machinery for substring-absence proofs

`winFail pat s = true` certifies that `pat` cannot be a prefix of
`s ++ n` for any all-digit `n`; `scanFail X pat = true` certifies the
same for every suffix position of `X ++ n`.  These let a finite
computation establish that a fixed pattern does not occur in a message
of the shape `concrete prefix ++ digits`. -/

def winFail : List Char → List Char → Bool
  | [], _ => false
  | p :: _, [] => !isDigit p
  | p :: ps, c :: cs => if p == c then winFail ps cs else true

def scanFail (X pat : List Char) : Bool :=
  match X with
  | [] => winFail pat []
  | _ :: X' => winFail pat X && scanFail X' pat

/-- A message of the exact shape
`Unexpected token ⟨t⟩ in JSON at position ⟨n⟩`. -/
def mkJsonMsg (t : Char) (n : List Char) : List Char :=
  r4Lit ++ t :: ' ' :: (r4JsonLit ++ n)

/-- The sentence the JSON-position handler renders. -/
def jsonSentence (t : Char) (n : List Char) : List Char :=
  ("JSON syntax error at position ".toList) ++ n ++
    (". Unexpected ".toList) ++ [t] ++ (".".toList)

/-- Lower-cased skeleton pieces of `mkJsonMsg`. -/
def utSkel : List Char := "unexpected token ".toList

def jsonSkel : List Char := " in json at position ".toList

/-! ### Concrete inputs used by the claim theorems -/

def c1FaultA : Fault := ⟨"foo is not a function".toList, "TypeError".toList, []⟩

def c1FaultB : Fault := ⟨"foo  is not a function".toList, "TypeError".toList, []⟩

def c1FaultC : Fault := ⟨"oops".toList, "TypeError".toList, "stack one".toList⟩

def c1FaultD : Fault := ⟨"oops".toList, "TypeError".toList, "stack two".toList⟩

def c3Fault : Fault := ⟨"boom".toList, "Error".toList, []⟩

def c4Fault : Fault := ⟨"kaput".toList, "Error".toList, []⟩

def c5Fault : Fault := ⟨"Loading*chunk".toList, "Error".toList, []⟩

def c5ResizeFault : Fault :=
  ⟨"ResizeObserver loop limit exceeded".toList, "Error".toList, []⟩

def c9Fault : Fault :=
  ⟨"Unexpected token ab in JSON at position 3".toList, "SyntaxError".toList, []⟩

def c2WitnessState : EngineState :=
  { initEngine cfgOn true with isSpeaking := true }

/-! ## Theorems -/

/-- Claim C10: `handleError(null)` (and `undefined`) is a complete no-op:
the engine state — speech queue, ledger, in-flight flag, configuration —
is unchanged and the humanizer is not invoked. -/
theorem c10_null_noop (s : EngineState) (now : Nat) :
    handleErrorT s none now = (s, false) := rfl

/-- Claim C4: the admission check is atomic with respect to the ledger:
a `false` verdict leaves the ledger exactly as it was, and a `true`
verdict sets the global timestamp and the key's timestamp to `now` and
increments the key's count by one. -/
theorem c4_ledger_atomicity (cfg : NarratorConfig) (e : Fault) (now : Nat)
    (st : Ledger) :
    ((shouldSpeak cfg e now st).1 = false → (shouldSpeak cfg e now st).2 = st) ∧
    ((shouldSpeak cfg e now st).1 = true →
      (shouldSpeak cfg e now st).2 = admitUpdate st (errorKeyOf e) now) := by
  unfold shouldSpeak
  dsimp only
  split_ifs <;> simp [admitUpdate, errorKeyOf]

/-- Witness for C4 at a concrete admitted fault. -/
theorem c4_witness :
    (shouldSpeak cfgOn c4Fault 7 emptyLedger).2 =
      admitUpdate emptyLedger (errorKeyOf c4Fault) 7 :=
  (c4_ledger_atomicity cfgOn c4Fault 7 emptyLedger).2 (by decide)

/-- Counterexample for C3: with `cooldownMs = 5000`, submitting the
identical fault at t = 0, 5100, 15200, 30300, 45400 does **not** produce
the verdict pattern the claim states (all of the first four admitted):
the attempt at t = 15200 is dropped. -/
theorem c3_counterexample :
    ¬ ((runAttempts cfgOn c3Fault emptyLedger [0, 5100, 15200, 30300, 45400]).1 =
      [true, true, true, true, false]) := by decide

/-- Claim C3 (amended): under the code's rule — effective per-key
cooldown `cooldownMs × min(admitCount + 1, 5)`, and a stored timestamp
of `0` treated as *never spoken* (JavaScript falsiness) — the five
attempts at t = 0, 5100, 15200, 30300, 45400 are admitted, admitted
(the t = 5100 attempt escapes both cooldowns because the stored
timestamps are the falsy `0`), dropped (10100 < 5000 × min(2+1,5)),
admitted (25200 ≥ 15000), and dropped (15100 < 5000 × min(3+1,5)). -/
theorem c3_escalation_trace :
    (runAttempts cfgOn c3Fault emptyLedger [0, 5100, 15200, 30300, 45400]).1 =
      [true, true, false, true, false] := by decide

/-- Counterexample for C8: with `maxMessageLength = 2` the truncated
result `"..."` has 3 characters, exceeding the budget. -/
theorem c8_counterexample :
    truncateMessage ("hello".toList) (some 2) = ("...".toList) ∧
    2 < (truncateMessage ("hello".toList) (some 2)).length := by decide

/-- Claim C8 (amended): for every message and every
`maxMessageLength ≥ 3`, the output stays within the budget; messages at
or under the limit are returned unchanged, and longer messages are cut
to `maxMessageLength - 3` characters plus the ellipsis `...`, making
exactly `maxMessageLength`. -/
theorem c8_truncate_budget (message : List Char) (maxLength : Nat)
    (h : 3 ≤ maxLength) :
    (truncateMessage message (some maxLength)).length ≤ maxLength ∧
    (message.length ≤ maxLength → truncateMessage message (some maxLength) = message) ∧
    (maxLength < message.length →
      truncateMessage message (some maxLength) =
        message.take (maxLength - 3) ++ ("...".toList) ∧
      (truncateMessage message (some maxLength)).length = maxLength) := by
  refine ⟨?_, ?_, ?_⟩
  · by_cases hle : message.length ≤ maxLength
    · simp [truncateMessage, hle]
    · have h3 : maxLength - 3 ≤ message.length := by omega
      simp [truncateMessage, hle, List.length_take, Nat.min_eq_left h3] <;> omega
  · intro hle
    simp [truncateMessage, hle]
  · intro hlt
    have hle : ¬ message.length ≤ maxLength := by omega
    have h3 : maxLength - 3 ≤ message.length := by omega
    constructor
    · simp [truncateMessage, hle]
    · simp [truncateMessage, hle, List.length_take, Nat.min_eq_left h3] <;> omega

/-- Witness for C8 at a concrete over-long message. -/
theorem c8_witness :
    (truncateMessage ("abcdefgh".toList) (some 5)).length ≤ 5 ∧
    truncateMessage ("abcdefgh".toList) (some 5) =
      ("abcdefgh".toList).take 2 ++ ("...".toList) := by
  have h := c8_truncate_budget ("abcdefgh".toList) 5 (by decide)
  exact ⟨h.1, ((h.2.2 (by decide)).1)⟩

/-- Counterexample for C1: two faults whose different raw messages
humanize to the identical sentence do **not** share a per-key cooldown
entry — the key hashes the raw message, not the final humanized text. -/
theorem c1_counterexample :
    humanizeError c1FaultA cfgOn = humanizeError c1FaultB cfgOn ∧
    errorKeyOf c1FaultA ≠ errorKeyOf c1FaultB := by decide

/-- Claim C1 (amended): the per-error cooldown key is
`kind ++ ":" ++ hash(raw message)` — deterministic in the *raw* message
text and the kind.  Any two faults with the same raw message and kind are
indistinguishable to the policy, sharing the same key and the same
admission behaviour; faults that merely humanize to the same sentence
need not share a key (see the counterexample). -/
theorem c1_policy_keyed_by_raw_text (cfg : NarratorConfig) (e1 e2 : Fault)
    (now : Nat) (st : Ledger) (hmsg : msgOf e1 = msgOf e2)
    (hty : typeNameOf e1 = typeNameOf e2) :
    errorKeyOf e1 = errorKeyOf e2 ∧
    shouldSpeak cfg e1 now st = shouldSpeak cfg e2 now st := by
  constructor
  · unfold errorKeyOf
    rw [hmsg, hty]
  · unfold shouldSpeak
    rw [hmsg, hty]

/-- Witness for C1 at two concrete faults differing only in their stack. -/
theorem c1_witness :
    errorKeyOf c1FaultC = errorKeyOf c1FaultD ∧
    shouldSpeak cfgOn c1FaultC 5 emptyLedger =
      shouldSpeak cfgOn c1FaultD 5 emptyLedger :=
  c1_policy_keyed_by_raw_text cfgOn c1FaultC c1FaultD 5 emptyLedger
    (by decide) (by decide)

/-- Counterexample for C2: three immediate `speak` calls — the third with
text identical to the second — leave two identical pending utterances in
the queue and never touch the policy ledger, so `speak` applies neither
the queue dedup, nor the cooldowns, nor the filters. -/
theorem c2_counterexample :
    (runEvents (initEngine cfgOn true)
      [Ev.speakEv ("b".toList), Ev.speakEv ("x".toList),
       Ev.speakEv ("x".toList)]).speechQueue = [("x".toList), ("x".toList)] ∧
    (runEvents (initEngine cfgOn true)
      [Ev.speakEv ("b".toList), Ev.speakEv ("x".toList),
       Ev.speakEv ("x".toList)]).ledger = emptyLedger := by decide

/-- Claim C2 (amended): `speak(text)` bypasses the Classifier, the
Humanizer **and** the admission policy except the `enabled` gate (plus
sink availability): it never reads or writes the ledger, and whenever the
engine is enabled with a sink present it enqueues the text
unconditionally (shown here with a busy sink, where the enqueued text
stays pending even if a duplicate). -/
theorem c2_speak_no_policy (s : EngineState) (m : List Char) :
    (speakOp s m).ledger = s.ledger ∧
    (s.cfg.enabled = true → s.sinkAvailable = true → s.isSpeaking = true →
      (speakOp s m).speechQueue = s.speechQueue ++ [m]) := by
  unfold speakOp processSpeechQueue
  constructor
  · split
    · rfl
    · split
      · rfl
      · split <;> rfl
  · intro h1 h2 h3
    simp [h1, h2, h3]

/-- Witness for C2: a busy enabled engine enqueues without consulting the
ledger. -/
theorem c2_witness :
    (speakOp c2WitnessState ("dup".toList)).ledger = c2WitnessState.ledger ∧
    (speakOp c2WitnessState ("dup".toList)).speechQueue = [("dup".toList)] := by
  have h := c2_speak_no_policy c2WitnessState ("dup".toList)
  refine ⟨h.1, ?_⟩
  have h2 := h.2 rfl rfl rfl
  simpa [c2WitnessState, initEngine] using h2

/-- Counterexample for C5: a fault whose raw text matches no always-ignore
pattern but whose *humanized* text contains `Loading chunk` is humanized,
admitted, and recorded in the ledger — the always-ignore check inspects
only the raw text. -/
theorem c5_counterexample :
    containsSub (lowerL (humanizeError c5Fault cfgOn))
      (lowerL ("Loading chunk".toList)) = true ∧
    (handleErrorT (initEngine cfgOn true) (some c5Fault) 1000).2 = true ∧
    mapGet ((handleErrorT (initEngine cfgOn true) (some c5Fault) 1000).1.ledger.lastSpoken)
      globalKey = some 1000 := by decide

/-- Claim C5 (amended): for any fault whose **raw** text contains one of
the four always-ignore patterns as a case-insensitive substring,
`handleError` drops it before humanization: the engine state is untouched
and the Humanizer is never invoked — regardless of configuration. -/
theorem c5_raw_ignore_closure (s : EngineState) (e : Fault) (now : Nat)
    (h : (alwaysIgnorePatterns.any
      (fun pat => containsSub (lowerL (msgOf e)) (lowerL pat))) = true) :
    (handleErrorT s (some e) now).1 = s ∧
    (handleErrorT s (some e) now).2 = false := by
  have hi : shouldIgnoreError e = true := h
  unfold handleErrorT
  simp [hi]

/-- Witness for C5 at the literal ResizeObserver pattern. -/
theorem c5_witness :
    (handleErrorT (initEngine cfgOn true) (some c5ResizeFault) 42).1 =
      initEngine cfgOn true ∧
    (handleErrorT (initEngine cfgOn true) (some c5ResizeFault) 42).2 = false :=
  c5_raw_ignore_closure (initEngine cfgOn true) c5ResizeFault 42 (by decide)

/-! ### Queue-dedup and in-flight invariants (C6, C7) -/

theorem nodup_push {q : List (List Char)} {m : List Char} (h : q.Nodup)
    (hm : m ∉ q) : (q ++ [m]).Nodup := by
  simp [List.nodup_append, h, hm]

theorem processSpeechQueue_queue_nodup {s : EngineState}
    (h : s.speechQueue.Nodup) : (processSpeechQueue s).speechQueue.Nodup := by
  unfold processSpeechQueue
  split
  · exact h
  · split
    · exact h
    · rename_i heq
      rw [heq] at h
      exact h.of_cons

theorem speakOp_queue_nodup {s : EngineState} {m : List Char}
    (h : s.speechQueue.Nodup) (hm : m ∉ s.speechQueue) :
    (speakOp s m).speechQueue.Nodup := by
  unfold speakOp
  split
  · exact h
  · exact processSpeechQueue_queue_nodup (nodup_push h hm)

theorem handleErrorT_queue_nodup {s : EngineState} (e? : Option Fault)
    (now : Nat) (h : s.speechQueue.Nodup) :
    ((handleErrorT s e? now).1).speechQueue.Nodup := by
  cases e? with
  | none => exact h
  | some e =>
    unfold handleErrorT
    dsimp only
    split
    · exact h
    · split <;>
      · split
        · exact h
        · split
          · exact h
          · rename_i hcon
            split
            · exact speakOp_queue_nodup h (by simpa using hcon)
            · exact h

theorem step_core_queue_nodup {s : EngineState} {ev : Ev}
    (h : s.speechQueue.Nodup) (hev : isCoreEv ev = true) :
    (step s ev).speechQueue.Nodup := by
  cases ev with
  | fault e now => exact handleErrorT_queue_nodup e now h
  | speakEv m => simp [isCoreEv] at hev
  | testEv m => simp [isCoreEv] at hev
  | clearEv => simp [step, clearQueueOp]
  | complete =>
    simp only [step]
    split
    · exact h
    · exact h
  | settle => exact processSpeechQueue_queue_nodup h

/-- Counterexample for C6: two direct `speak` calls with identical text
while the sink is busy leave two identical pending utterances — `speak`
(and `test`) skip the dedup check that `handleFault` performs. -/
theorem c6_counterexample :
    ¬ ((runEvents (initEngine cfgOn true)
        [Ev.speakEv ("q".toList), Ev.speakEv ("dup".toList),
         Ev.speakEv ("dup".toList)]).speechQueue.Nodup) := by decide

/-- Claim C6 (amended): at every state reachable by `handleFault`,
`clearQueue`, sink completions and settle ticks — i.e. excluding the
direct `speak`/`test` entry points — no two pending utterances in the
speech queue have identical text. -/
theorem c6_fault_queue_nodup (cfg : NarratorConfig) (sink : Bool)
    (evs : List Ev) (hall : ∀ ev ∈ evs, isCoreEv ev = true) :
    (runEvents (initEngine cfg sink) evs).speechQueue.Nodup := by
  suffices key : ∀ (l : List Ev) (s : EngineState), s.speechQueue.Nodup →
      (∀ ev ∈ l, isCoreEv ev = true) → (runEvents s l).speechQueue.Nodup by
    exact key evs (initEngine cfg sink) (by simp [initEngine]) hall
  intro l
  induction l with
  | nil =>
    intro s hs _
    simpa [runEvents] using hs
  | cons ev rest ih =>
    intro s hs hl
    have h1 : (step s ev).speechQueue.Nodup :=
      step_core_queue_nodup hs (hl ev (List.mem_cons_self ev rest))
    have h2 := ih (step s ev) h1 (fun x hx => hl x (List.mem_cons_of_mem ev hx))
    simpa [runEvents] using h2

/-- Witness for C6 on a concrete trace of core events. -/
theorem c6_witness :
    (runEvents (initEngine cfgOn true)
      [Ev.fault (some c3Fault) 3, Ev.clearEv, Ev.settle]).speechQueue.Nodup :=
  c6_fault_queue_nodup cfgOn true
    [Ev.fault (some c3Fault) 3, Ev.clearEv, Ev.settle] (by decide)

theorem processSpeechQueue_inflight {s : EngineState} (h : InflightInv s) :
    InflightInv (processSpeechQueue s) := by
  obtain ⟨h1, h2⟩ := h
  unfold processSpeechQueue
  split
  · exact ⟨h1, h2⟩
  · rename_i hns
    split
    · exact ⟨h1, h2⟩
    · have h0 : s.outstanding = 0 := by
        by_contra hne
        exact hns (h2.mpr (by omega))
      exact ⟨by simp [InflightInv, h0], by simp [h0]⟩

theorem speakOp_inflight {s : EngineState} (m : List Char)
    (h : InflightInv s) : InflightInv (speakOp s m) := by
  unfold speakOp
  split
  · exact h
  · exact processSpeechQueue_inflight h

theorem handleErrorT_inflight {s : EngineState} (e? : Option Fault)
    (now : Nat) (h : InflightInv s) :
    InflightInv ((handleErrorT s e? now).1) := by
  cases e? with
  | none => exact h
  | some e =>
    unfold handleErrorT
    dsimp only
    split
    · exact h
    · split <;>
      · split
        · exact h
        · split
          · exact h
          · split
            · exact speakOp_inflight _ h
            · exact h

theorem step_noncancel_inflight {s : EngineState} {ev : Ev}
    (h : InflightInv s) (hev : isNonCancelEv ev = true) :
    InflightInv (step s ev) := by
  cases ev with
  | fault e now => exact handleErrorT_inflight e now h
  | speakEv m => exact speakOp_inflight m h
  | testEv m => exact speakOp_inflight _ h
  | clearEv => simp [isNonCancelEv] at hev
  | complete =>
    obtain ⟨h1, h2⟩ := h
    simp only [step]
    split
    · exact ⟨h1, h2⟩
    · rename_i h0
      constructor
      · show s.outstanding - 1 ≤ 1
        omega
      · constructor
        · intro hf
          exact absurd hf (by simp)
        · intro ho
          exfalso
          have ho' : s.outstanding - 1 = 1 := ho
          omega
  | settle => exact processSpeechQueue_inflight h

/-- Counterexample for C7: `speak A`, then `clearQueue` (which cancels
without waiting for the sink), then `speak B` leaves **two** utterances
handed to the sink without a matching completion — the cancelled
utterance's completion has not fired yet when B is dispatched. -/
theorem c7_counterexample :
    (runEvents (initEngine cfgOn true)
      [Ev.speakEv ("A".toList), Ev.clearEv,
       Ev.speakEv ("B".toList)]).outstanding = 2 := by decide

/-- Claim C7 (amended): as long as cancellation (`clearQueue`/`disable`)
is never invoked, every interleaving of enqueue events (`handleFault`,
`speak`, `test`), sink completions and settle ticks keeps at most one
utterance in flight, and `isSpeaking` is true exactly when one dispatched
utterance has not yet completed. -/
theorem c7_at_most_one_in_flight (cfg : NarratorConfig) (sink : Bool)
    (evs : List Ev) (hall : ∀ ev ∈ evs, isNonCancelEv ev = true) :
    InflightInv (runEvents (initEngine cfg sink) evs) := by
  suffices key : ∀ (l : List Ev) (s : EngineState), InflightInv s →
      (∀ ev ∈ l, isNonCancelEv ev = true) → InflightInv (runEvents s l) by
    exact key evs (initEngine cfg sink) (by simp [InflightInv, initEngine]) hall
  intro l
  induction l with
  | nil =>
    intro s hs _
    simpa [runEvents] using hs
  | cons ev rest ih =>
    intro s hs hl
    have h1 := step_noncancel_inflight hs (hl ev (List.mem_cons_self ev rest))
    have h2 := ih (step s ev) h1 (fun x hx => hl x (List.mem_cons_of_mem ev hx))
    simpa [runEvents] using h2

/-- Witness for C7 on a concrete cancel-free trace. -/
theorem c7_witness :
    InflightInv (runEvents (initEngine cfgOn true)
      [Ev.speakEv ("hi".toList), Ev.complete, Ev.settle]) :=
  c7_at_most_one_in_flight cfgOn true
    [Ev.speakEv ("hi".toList), Ev.complete, Ev.settle] (by decide)

/-! ### C9 helper lemmas -/

theorem toLower_digit {c : Char} (h : isDigit c = true) : c.toLower = c := by
  unfold isDigit at h
  simp only [Bool.and_eq_true, decide_eq_true_eq] at h
  obtain ⟨h1, h2⟩ := h
  simp [Char.le_def] at h1 h2
  have a : 48 ≤ c.toNat := h1
  have b : c.toNat ≤ 57 := h2
  have hn : ¬ (c.toNat ≥ 65 ∧ c.toNat ≤ 90) := by omega
  exact if_neg hn

theorem lowerL_digits {n : List Char} (h : ∀ d ∈ n, isDigit d = true) :
    lowerL n = n := by
  unfold lowerL
  induction n with
  | nil => rfl
  | cons d ds ih =>
    simp only [List.map_cons]
    rw [toLower_digit (h d (List.mem_cons_self d ds)),
      ih (fun x hx => h x (List.mem_cons_of_mem d hx))]

theorem ciStrip_self_append (p s : List Char) : ciStrip p (p ++ s) = some s := by
  induction p with
  | nil => rfl
  | cons c cs ih => simp [ciStrip, eqCi, ih]

theorem isPrefixOf_self_append (p s : List Char) : p.isPrefixOf (p ++ s) = true := by
  induction p with
  | nil => simp [List.isPrefixOf]
  | cons c cs ih => simp [List.isPrefixOf, ih]

theorem containsSub_append_self (p s : List Char) : containsSub (p ++ s) p = true := by
  rw [containsSub.eq_def]
  simp [isPrefixOf_self_append]

theorem winFail_spec (pat : List Char) : ∀ (s n : List Char),
    (∀ d ∈ n, isDigit d = true) → winFail pat s = true →
    pat.isPrefixOf (s ++ n) = false := by
  induction pat with
  | nil =>
    intro s n _ h
    simp [winFail] at h
  | cons p ps ih =>
    intro s n hn h
    cases s with
    | nil =>
      simp only [winFail, Bool.not_eq_true'] at h
      cases n with
      | nil => simp [List.isPrefixOf]
      | cons d ds =>
        have hd := hn d (List.mem_cons_self d ds)
        have hpd : (p == d) = false := by
          rw [beq_eq_false_iff_ne]
          intro hcon
          rw [hcon, hd] at h
          simp at h
        simp [List.isPrefixOf, hpd]
    | cons c cs =>
      by_cases hpc : (p == c) = true
      · simp only [winFail, hpc, if_true] at h
        have := ih cs n hn h
        simp only [List.cons_append, List.isPrefixOf, hpc, Bool.true_and]
        exact this
      · simp only [List.cons_append, List.isPrefixOf, hpc, Bool.false_and]

theorem containsSub_digits (pat : List Char) : ∀ (n : List Char),
    (∀ d ∈ n, isDigit d = true) → winFail pat [] = true →
    containsSub n pat = false := by
  intro n
  induction n with
  | nil =>
    intro _ hw
    cases pat with
    | nil => simp [winFail] at hw
    | cons p ps => rw [containsSub.eq_def]; simp [List.isPrefixOf]
  | cons d ds ih =>
    intro hn hw
    have hp : pat.isPrefixOf (d :: ds) = false := by
      have := winFail_spec pat [] (d :: ds) hn hw
      simpa using this
    rw [containsSub.eq_def]
    simp only [hp, Bool.false_eq_true, if_false]
    exact ih (fun x hx => hn x (List.mem_cons_of_mem d hx)) hw

theorem scanFail_spec : ∀ (X pat n : List Char),
    (∀ d ∈ n, isDigit d = true) → scanFail X pat = true →
    containsSub (X ++ n) pat = false := by
  intro X
  induction X with
  | nil =>
    intro pat n hn h
    simp only [scanFail] at h
    simpa using containsSub_digits pat n hn h
  | cons x X' ih =>
    intro pat n hn h
    simp only [scanFail, Bool.and_eq_true] at h
    have h1 : pat.isPrefixOf ((x :: X') ++ n) = false :=
      winFail_spec pat (x :: X') n hn h.1
    rw [containsSub.eq_def]
    simp only [List.cons_append] at h1 ⊢
    simp only [h1, Bool.false_eq_true, if_false]
    have h2 := ih pat n hn h.2
    exact h2

theorem containsSub_mem : ∀ {hay pat : List Char},
    containsSub hay pat = true → ∀ a ∈ pat, a ∈ hay := by
  intro hay
  induction hay with
  | nil =>
    intro pat h a ha
    cases pat with
    | nil => simp at ha
    | cons p ps =>
      rw [containsSub.eq_def] at h
      simp [List.isPrefixOf] at h
  | cons x t ih =>
    intro pat h a ha
    by_cases hp : pat.isPrefixOf (x :: t) = true
    · have hpre : pat <+: (x :: t) := List.isPrefixOf_iff_prefix.mp hp
      exact hpre.sublist.subset ha
    · rw [containsSub.eq_def] at h
      simp only [hp, Bool.false_eq_true, if_false] at h
      exact List.mem_cons_of_mem x (ih h a ha)

theorem lowerJsonMsg (t : Char) (n : List Char)
    (hn : ∀ d ∈ n, isDigit d = true) :
    lowerL (mkJsonMsg t n) = utSkel ++ t.toLower :: (jsonSkel ++ n) := by
  unfold mkJsonMsg lowerL
  simp only [List.map_append, List.map_cons]
  have e1 : List.map Char.toLower r4Lit = utSkel := by decide
  have e2 : Char.toLower ' ' = ' ' := by decide
  have e3 : List.map Char.toLower r4JsonLit = ("in json at position ".toList) := by
    decide
  have e4 : List.map Char.toLower n = n := lowerL_digits hn
  rw [e1, e2, e3, e4]
  rfl

theorem no_pat_in_json_msg (pat : List Char) (k : Char) (hk : k ∈ pat)
    (hk1 : ¬ k ∈ utSkel) (hk2 : ¬ k ∈ jsonSkel) (hkd : isDigit k = false)
    (hscan : scanFail (utSkel ++ k :: jsonSkel) pat = true)
    (c : Char) (n : List Char) (hn : ∀ d ∈ n, isDigit d = true) :
    containsSub (utSkel ++ c :: (jsonSkel ++ n)) pat = false := by
  by_contra hcon
  rw [Bool.not_eq_false] at hcon
  have hkhay : k ∈ utSkel ++ c :: (jsonSkel ++ n) := containsSub_mem hcon k hk
  have hc : c = k := by
    rcases List.mem_append.mp hkhay with h | h
    · exact absurd h hk1
    · rcases List.mem_cons.mp h with h | h
      · exact h.symm
      · rcases List.mem_append.mp h with h | h
        · exact absurd h hk2
        · have := hn k h
          rw [hkd] at this
          cases this
  subst hc
  have key := scanFail_spec (utSkel ++ c :: jsonSkel) pat n hn hscan
  rw [List.append_assoc] at key
  simp only [List.cons_append] at key
  rw [key] at hcon
  cases hcon

theorem no_p1 (c : Char) (n : List Char) (hn : ∀ d ∈ n, isDigit d = true) :
    containsSub (utSkel ++ c :: (jsonSkel ++ n))
      ("is not a function".toList) = false :=
  no_pat_in_json_msg _ 'f' (by decide) (by decide) (by decide) (by decide)
    (by decide) c n hn

theorem no_p2 (c : Char) (n : List Char) (hn : ∀ d ∈ n, isDigit d = true) :
    containsSub (utSkel ++ c :: (jsonSkel ++ n))
      ("cannot read property".toList) = false :=
  no_pat_in_json_msg _ 'y' (by decide) (by decide) (by decide) (by decide)
    (by decide) c n hn

theorem no_p3 (c : Char) (n : List Char) (hn : ∀ d ∈ n, isDigit d = true) :
    containsSub (utSkel ++ c :: (jsonSkel ++ n))
      ("cannot read properties".toList) = false :=
  no_pat_in_json_msg _ 'r' (by decide) (by decide) (by decide) (by decide)
    (by decide) c n hn

theorem dropWhile_nonws_cons {c : Char} {l : List Char} (h : isWs c = false) :
    (c :: l).dropWhile isWs = c :: l := by
  simp [List.dropWhile_cons, h]

theorem r4Suffix_json (n : List Char) (hn0 : n ≠ [])
    (hn : ∀ d ∈ n, isDigit d = true) :
    r4Suffix (' ' :: (r4JsonLit ++ n)) = some n := by
  unfold r4Suffix
  have hws : isWs ' ' = true := by decide
  simp only [hws, if_true]
  have hdrop : (r4JsonLit ++ n).dropWhile isWs = r4JsonLit ++ n := by
    rw [show r4JsonLit ++ n = 'i' :: (("n JSON at position ".toList) ++ n) from rfl]
    exact dropWhile_nonws_cons (by decide)
  rw [hdrop, ciStrip_self_append]
  have htake : n.takeWhile isDigit = n := List.takeWhile_eq_self_iff.mpr hn
  simp only [htake]
  have hne : n.isEmpty = false := by
    cases n with
    | nil => exact absurd rfl hn0
    | cons a l => rfl
  simp [hne]

theorem r4At_json (t : Char) (n : List Char) (ht : isNl t = false)
    (hn0 : n ≠ []) (hn : ∀ d ∈ n, isDigit d = true) :
    r4At (t :: ' ' :: (r4JsonLit ++ n)) = some ([t], some n) := by
  unfold r4At
  simp only [ht, Bool.false_eq_true, if_false]
  rw [r4Suffix_json n hn0 hn]

theorem r4Match_strip {s rest : List Char} {m : List Char × Option (List Char)}
    (h : ciStrip r4Lit s = some rest) (h2 : r4At rest = some m) :
    r4Match s = some m := by
  cases s with
  | nil =>
    rw [show ciStrip r4Lit ([] : List Char) = none from rfl] at h
    cases h
  | cons c t =>
    rw [r4Match.eq_def]
    simp only []
    rw [h]
    dsimp only
    rw [h2]

theorem r4Match_json (t : Char) (n : List Char) (ht : isNl t = false)
    (hn0 : n ≠ []) (hn : ∀ d ∈ n, isDigit d = true) :
    r4Match (mkJsonMsg t n) = some ([t], some n) :=
  r4Match_strip (ciStrip_self_append r4Lit (t :: ' ' :: (r4JsonLit ++ n)))
    (r4At_json t n ht hn0 hn)

theorem tryPatterns_cons_skip {p : PatternRule} {rest : List PatternRule}
    {message ty : List Char}
    (h : (p.pname == ty || containsSub (lowerL message) (lowerL p.pname)) = false) :
    tryPatterns (p :: rest) message ty = tryPatterns rest message ty := by
  rw [tryPatterns.eq_def]
  simp only [h, Bool.false_eq_true, if_false]

theorem tryPatterns_cons_hit {p : PatternRule} {rest : List PatternRule}
    {message ty : List Char} {m : RMatch}
    (h : (p.pname == ty || containsSub (lowerL message) (lowerL p.pname)) = true)
    (hm : p.matcher message = some m) :
    tryPatterns (p :: rest) message ty = some (p.handler m) := by
  rw [tryPatterns.eq_def]
  simp only [h, if_true]
  rw [hm]

/-- The sentence rendered for `mkJsonMsg` by the pattern table. -/
theorem tryPatterns_json (t : Char) (n : List Char) (ht : isNl t = false)
    (hn0 : n ≠ []) (hn : ∀ d ∈ n, isDigit d = true) :
    tryPatterns patternRules (mkJsonMsg t n) ("SyntaxError".toList) =
      some (jsonSentence t n) := by
  have hlow := lowerJsonMsg t n hn
  have c1 : ((("is not a function".toList : List Char) == ("SyntaxError".toList)) ||
      containsSub (lowerL (mkJsonMsg t n)) (lowerL ("is not a function".toList))) = false := by
    rw [hlow, show lowerL ("is not a function".toList) = ("is not a function".toList) from by decide]
    rw [no_p1 t.toLower n hn]
    decide
  have c2 : ((("Cannot read property".toList : List Char) == ("SyntaxError".toList)) ||
      containsSub (lowerL (mkJsonMsg t n)) (lowerL ("Cannot read property".toList))) = false := by
    rw [hlow, show lowerL ("Cannot read property".toList) = ("cannot read property".toList) from by decide]
    rw [no_p2 t.toLower n hn]
    decide
  have c3 : ((("Cannot read properties".toList : List Char) == ("SyntaxError".toList)) ||
      containsSub (lowerL (mkJsonMsg t n)) (lowerL ("Cannot read properties".toList))) = false := by
    rw [hlow, show lowerL ("Cannot read properties".toList) = ("cannot read properties".toList) from by decide]
    rw [no_p3 t.toLower n hn]
    decide
  have c4 : ((("Unexpected token".toList : List Char) == ("SyntaxError".toList)) ||
      containsSub (lowerL (mkJsonMsg t n)) (lowerL ("Unexpected token".toList))) = true := by
    rw [hlow, show lowerL ("Unexpected token".toList) = ("unexpected token".toList) from by decide]
    rw [show utSkel ++ t.toLower :: (jsonSkel ++ n) =
        ("unexpected token".toList) ++ (' ' :: t.toLower :: (jsonSkel ++ n)) from rfl]
    rw [containsSub_append_self]
    simp
  have hm : m4 (mkJsonMsg t n) = some [some [t], some n] := by
    unfold m4
    rw [r4Match_json t n ht hn0 hn]
    rfl
  unfold patternRules
  rw [tryPatterns_cons_skip c1, tryPatterns_cons_skip c2, tryPatterns_cons_skip c3,
    tryPatterns_cons_hit c4 hm]
  dsimp only
  unfold h4 grp jsOr
  have hne : n.isEmpty = false := by
    cases n with
    | nil => exact absurd rfl hn0
    | cons a l => rfl
  simp [hne, jsonSentence]

/-- Counterexample for C9: the lazy `(.+?)` of the `Unexpected token`
regex captures only the **first character** of a multi-character token,
and the optional JSON-position group then fails to match, so
`Unexpected token ab in JSON at position 3` renders as the generic syntax
message, not the claimed JSON sentence. -/
theorem c9_counterexample :
    humanizeError c9Fault cfgOn =
      ("Syntax error: unexpected a. Check for missing brackets, commas, or quotes.".toList) ∧
    humanizeError c9Fault cfgOn ≠
      ("JSON syntax error at position 3. Unexpected ab.".toList) := by decide

/-- Claim C9 (amended): for every **single-character** token `t` (not a
line terminator) and every non-empty digit string `N`, humanizing a
`SyntaxError` fault with message `Unexpected token t in JSON at position
N` yields exactly `JSON syntax error at position N. Unexpected t.`,
provided the sentence (45 + |N| characters) fits within the truncation
budget. -/
theorem c9_json_pattern (cfg : NarratorConfig) (t : Char) (n : List Char)
    (stack : List Char) (ht : isNl t = false) (hn0 : n ≠ [])
    (hn : ∀ d ∈ n, isDigit d = true)
    (hlen : 45 + n.length ≤ cfg.maxMessageLength.getD 150) :
    humanizeError ⟨mkJsonMsg t n, ("SyntaxError".toList), stack⟩ cfg =
      jsonSentence t n := by
  unfold humanizeError
  dsimp only
  have hmsg : msgOf ⟨mkJsonMsg t n, ("SyntaxError".toList), stack⟩ = mkJsonMsg t n := rfl
  rw [hmsg]
  rw [tryPatterns_json t n ht hn0 hn]
  dsimp only
  unfold truncateMessage
  have hl : (jsonSentence t n).length = 45 + n.length := by
    simp [jsonSentence]
    omega
  dsimp only
  rw [hl]
  rw [if_pos hlen]

/-- Witness for C9 at the single-character token `<` and position `0`. -/
theorem c9_witness :
    humanizeError ⟨mkJsonMsg '<' ("0".toList), ("SyntaxError".toList), []⟩ cfgOn =
      jsonSentence '<' ("0".toList) :=
  c9_json_pattern cfgOn '<' ("0".toList) [] (by decide) (by decide)
    (by decide) (by decide)

end ErrNarr
